import Mathlib

/-
Verification of the arXiv batch-download tool (cut_tree.py).

The embedding models the pure logical core of the script:
* `get_article_id`   — first-match extraction of an identifier with the
                       pattern \d{4}\.\d{5,6} (FIND_ID_REGEX);
* `get_pdf_name`     — title extraction from the abstract page with the
                       pattern <title>\[(\d*\.\d*)\](.*)</title>
                       (FIND_TITLE_REGEX), Python greedy `.*` semantics
                       where `.` does not match a newline;
* `process_one_article` — the per-article pipeline with the identity
                       cross-check (the Python assert) before the PDF fetch;
* `runMain`          — the coordinator loop of `main`, with the completion
                       order of asyncio.as_completed made explicit as a
                       permutation of the task indices;
* `generate_article_list`, `setup_printing`/`setup_saving`/`mainEntry` —
                       the __main__ helpers (input parsing, printing setup,
                       temporary-directory lifecycle with try/finally).

Network fetches are modelled as injected functions returning Except
(success body / failure); `raise_for_status` failures are the
`UpstreamUnavailable` error.  Python bytes objects (PDF content) are
modelled as Lean Strings of their bytes.  Python exceptions are mapped to
explicit error constructors: ValueError from get_article_id is
`MalformedInput`, the AttributeError raised by `match.group` when
re.search returns None is `UnparsableResponse`, the AssertionError of the
identity cross-check is `IdentityMismatch`.
-/

/-- Error taxonomy of the pipeline (spec section 7), with the concrete
Python exception each constructor models noted above. -/
inductive Err where
  | MalformedInput (line : String)
  | UpstreamUnavailable
  | UnparsableResponse
  | IdentityMismatch (aid parsed : String)
  deriving Repr, DecidableEq

/-- Length of the maximal run of decimal digits at the head of the list
(the extent a greedy `\d*` consumes). -/
def countDigits : List Char → Nat
  | [] => 0
  | c :: cs => if c.isDigit then countDigits cs + 1 else 0

/-- Whether a string (as a char list) is a complete match of
FIND_ID_REGEX, i.e. \d{4}\.\d{5,6}. -/
def idPattern (m : List Char) : Bool :=
  match m with
  | a :: b :: c :: d :: dot :: rest =>
    a.isDigit && b.isDigit && c.isDigit && d.isDigit && (dot == '.') &&
    rest.all Char.isDigit && decide (5 ≤ rest.length) && decide (rest.length ≤ 6)
  | _ => false

/-- Match FIND_ID_REGEX anchored at the head of `cs`: four digits, a dot,
then greedily five or six digits.  Returns the matched substring. -/
def matchIdAt : List Char → Option (List Char)
  | a :: b :: c :: d :: dot :: rest =>
    if a.isDigit && b.isDigit && c.isDigit && d.isDigit && (dot == '.') then
      if 5 ≤ countDigits rest then
        some (a :: b :: c :: d :: dot :: rest.take (min (countDigits rest) 6))
      else none
    else none
  | _ => none

/-- re.search for FIND_ID_REGEX: try to match at each position from the
left, first success wins. -/
def searchId : List Char → Option (List Char)
  | [] => none
  | c :: cs =>
    match matchIdAt (c :: cs) with
    | some m => some m
    | none => searchId cs

/-- cut_tree.get_article_id: extract the identifier from an input line, or
raise ValueError (modelled as MalformedInput) when the pattern is absent. -/
def get_article_id (line : String) : Except Err String :=
  match searchId line.data with
  | some m => Except.ok (String.mk m)
  | none => Except.error (Err.MalformedInput line)

theorem countDigits_le_length (cs : List Char) : countDigits cs ≤ cs.length := by
  induction cs with
  | nil => simp [countDigits]
  | cons c cs ih =>
    simp only [countDigits, List.length_cons]
    split
    · omega
    · omega

theorem take_countDigits_all (cs : List Char) (j : Nat) (hj : j ≤ countDigits cs) :
    (cs.take j).all Char.isDigit = true := by
  induction cs generalizing j with
  | nil => simp
  | cons c cs ih =>
    cases j with
    | zero => simp
    | succ j =>
      simp only [countDigits] at hj
      by_cases hc : c.isDigit
      · simp only [hc, if_true] at hj
        simp only [List.take_succ_cons, List.all_cons, hc, Bool.true_and]
        exact ih j (by omega)
      · simp [hc] at hj

theorem all_digits_le_countDigits (ds r : List Char)
    (hd : ds.all Char.isDigit = true) : ds.length ≤ countDigits (ds ++ r) := by
  induction ds with
  | nil => simp
  | cons c ds ih =>
    simp only [List.all_cons, Bool.and_eq_true] at hd
    simp only [List.cons_append, countDigits, hd.1, if_true, List.length_cons,
      List.append_eq]
    have := ih hd.2
    omega

theorem countDigits_append_nondigit (ds : List Char) (c : Char) (r : List Char)
    (hd : ds.all Char.isDigit = true) (hc : c.isDigit = false) :
    countDigits (ds ++ c :: r) = ds.length := by
  induction ds with
  | nil => simp [countDigits, hc]
  | cons d ds ih =>
    simp only [List.all_cons, Bool.and_eq_true] at hd
    simp only [List.cons_append, countDigits, hd.1, if_true, List.length_cons,
      List.append_eq]
    rw [ih hd.2]

theorem take_len_append {α : Type} (p r : List α) : (p ++ r).take p.length = p := by
  induction p with
  | nil => simp
  | cons a p ih => simp [ih]

theorem drop_len_append {α : Type} (p r : List α) : (p ++ r).drop p.length = r := by
  induction p with
  | nil => simp
  | cons a p ih => simp [ih]

/-- Soundness and greediness of the anchored identifier match: the result
is a prefix of the input, matches the pattern, and is the longest pattern
match anchored there. -/
theorem matchIdAt_sound (cs m : List Char) (h : matchIdAt cs = some m) :
    (∃ r, cs = m ++ r) ∧ idPattern m = true ∧
      (∀ m', idPattern m' = true → (∃ r', cs = m' ++ r') → m'.length ≤ m.length) := by
  match cs with
  | [] => simp [matchIdAt] at h
  | [a] => simp [matchIdAt] at h
  | [a, b] => simp [matchIdAt] at h
  | [a, b, c] => simp [matchIdAt] at h
  | [a, b, c, d] => simp [matchIdAt] at h
  | a :: b :: c :: d :: dot :: rest =>
    simp only [matchIdAt] at h
    by_cases hg : (a.isDigit && b.isDigit && c.isDigit && d.isDigit && (dot == '.')) = true
    · rw [if_pos hg] at h
      by_cases hk : 5 ≤ countDigits rest
      · rw [if_pos hk] at h
        have hm : a :: b :: c :: d :: dot :: rest.take (min (countDigits rest) 6) = m :=
          Option.some_injective _ h
        subst hm
        simp only [Bool.and_eq_true, beq_iff_eq] at hg
        obtain ⟨⟨⟨⟨ha, hb⟩, hc⟩, hd⟩, hdot⟩ := hg
        subst hdot
        have hkl : countDigits rest ≤ rest.length := countDigits_le_length rest
        have htl : (rest.take (min (countDigits rest) 6)).length = min (countDigits rest) 6 := by
          rw [List.length_take]
          omega
        refine ⟨⟨rest.drop (min (countDigits rest) 6), ?_⟩, ?_, ?_⟩
        · simp [List.take_append_drop]
        · have hall : (rest.take (min (countDigits rest) 6)).all Char.isDigit = true :=
            take_countDigits_all rest _ (by omega)
          simp only [idPattern, ha, hb, hc, hd, hall, htl, Bool.true_and, beq_self_eq_true,
            Bool.and_eq_true, decide_eq_true_eq]
          omega
        · intro m' hp hr
          obtain ⟨r', hr'⟩ := hr
          match m' with
          | a' :: b' :: c' :: d' :: dot' :: rest' =>
            simp only [idPattern, Bool.and_eq_true, beq_iff_eq, decide_eq_true_eq] at hp
            obtain ⟨⟨⟨⟨⟨⟨⟨_, _⟩, _⟩, _⟩, _⟩, hall'⟩, h5'⟩, h6'⟩ := hp
            simp only [List.cons_append, List.cons.injEq] at hr'
            have hrest : rest = rest' ++ r' := hr'.2.2.2.2.2
            have hle : rest'.length ≤ countDigits rest := by
              rw [hrest]
              exact all_digits_le_countDigits rest' r' hall'
            simp only [List.length_cons, htl]
            omega
          | [] => simp [idPattern] at hp
          | [x] => simp [idPattern] at hp
          | [x, y] => simp [idPattern] at hp
          | [x, y, z] => simp [idPattern] at hp
          | [x, y, z, w] => simp [idPattern] at hp
      · rw [if_neg hk] at h
        exact absurd h (by simp)
    · rw [if_neg hg] at h
      exact absurd h (by simp)

/-- Completeness of the anchored identifier match: if no match is reported
at this position, no pattern match starts here. -/
theorem matchIdAt_none (cs : List Char) (h : matchIdAt cs = none) :
    ∀ m r, cs = m ++ r → idPattern m = false := by
  intro m r hcs
  by_contra hp
  have hp' : idPattern m = true := by
    cases hq : idPattern m
    · exact absurd hq hp
    · rfl
  match m with
  | a :: b :: c :: d :: dot :: rest' =>
    simp only [idPattern, Bool.and_eq_true, beq_iff_eq, decide_eq_true_eq] at hp'
    obtain ⟨⟨⟨⟨⟨⟨⟨ha, hb⟩, hc⟩, hd⟩, hdot⟩, hall'⟩, h5'⟩, h6'⟩ := hp'
    subst hcs
    simp only [List.cons_append, matchIdAt] at h
    rw [if_pos (by simp [ha, hb, hc, hd, hdot])] at h
    have hk : 5 ≤ countDigits (rest' ++ r) := by
      have := all_digits_le_countDigits rest' r hall'
      omega
    rw [if_pos hk] at h
    exact absurd h (by simp)
  | [] => simp [idPattern] at hp'
  | [x] => simp [idPattern] at hp'
  | [x, y] => simp [idPattern] at hp'
  | [x, y, z] => simp [idPattern] at hp'
  | [x, y, z, w] => simp [idPattern] at hp'

/-- searchId finds the leftmost anchored match. -/
theorem searchId_some (s m : List Char) (h : searchId s = some m) :
    ∃ i, matchIdAt (s.drop i) = some m ∧ ∀ j, j < i → matchIdAt (s.drop j) = none := by
  induction s with
  | nil => simp [searchId] at h
  | cons c cs ih =>
    simp only [searchId] at h
    cases hm : matchIdAt (c :: cs) with
    | some m' =>
      rw [hm] at h
      refine ⟨0, ?_, ?_⟩
      · simpa [hm] using h
      · intro j hj
        omega
    | none =>
      rw [hm] at h
      obtain ⟨i, hi, hlt⟩ := ih h
      refine ⟨i + 1, by simpa using hi, ?_⟩
      intro j hj
      cases j with
      | zero => simpa using hm
      | succ j => simpa using hlt j (by omega)

/-- When searchId fails there is no anchored match at any position. -/
theorem searchId_none (s : List Char) (h : searchId s = none) :
    ∀ i, matchIdAt (s.drop i) = none := by
  induction s with
  | nil =>
    intro i
    simp [matchIdAt]
  | cons c cs ih =>
    simp only [searchId] at h
    cases hm : matchIdAt (c :: cs) with
    | some m' => rw [hm] at h; exact absurd h (by simp)
    | none =>
      rw [hm] at h
      intro i
      cases i with
      | zero => simpa using hm
      | succ i => simpa using ih h i

/-- C4: every input line containing a substring matching \d{4}\.\d{5,6}
makes get_article_id return exactly the first (leftmost, and greedy in
length at that position) such substring, regardless of surrounding text;
a line with no such substring yields the MalformedInput (ValueError)
failure.  The function is pure, so it has no side effects. -/
theorem get_article_id_correct (line : String) :
    (∃ m i, idPattern m = true ∧ (∃ r, line.data.drop i = m ++ r) ∧
        (∀ j m', idPattern m' = true → (∃ r', line.data.drop j = m' ++ r') → i ≤ j) ∧
        (∀ m', idPattern m' = true → (∃ r', line.data.drop i = m' ++ r') →
          m'.length ≤ m.length) ∧
        get_article_id line = Except.ok (String.mk m))
    ∨ ((∀ i m' r, line.data.drop i = m' ++ r → idPattern m' = false) ∧
        get_article_id line = Except.error (Err.MalformedInput line)) := by
  cases hs : searchId line.data with
  | some m =>
    left
    obtain ⟨i, hi, hlt⟩ := searchId_some line.data m hs
    obtain ⟨⟨r, hr⟩, hp, hmax⟩ := matchIdAt_sound _ m hi
    refine ⟨m, i, hp, ⟨r, hr⟩, ?_, ?_, by simp [get_article_id, hs]⟩
    · intro j m' hp' hr'
      by_contra hji
      push_neg at hji
      obtain ⟨r', hr''⟩ := hr'
      have hfalse := matchIdAt_none _ (hlt j hji) m' r' hr''
      rw [hp'] at hfalse
      exact absurd hfalse (by simp)
    · intro m' hp' hr'
      exact hmax m' hp' hr'
  | none =>
    right
    refine ⟨?_, by simp [get_article_id, hs]⟩
    intro i m' r hr
    exact matchIdAt_none _ (searchId_none line.data hs i) m' r hr

/-- The literal "<title>[" that opens FIND_TITLE_REGEX. -/
def openMark : List Char := ['<', 't', 'i', 't', 'l', 'e', '>', '[']

/-- The literal "</title>" that closes FIND_TITLE_REGEX. -/
def closeTitle : List Char := ['<', '/', 't', 'i', 't', 'l', 'e', '>']

/-- Whether `s` begins with the literal `p`. -/
def leadsWith (p s : List Char) : Bool := s.take p.length == p

/-- Position `n` in `t` is a spot where `(.*)</title>` can stop: the text
consumed by `.*` (the first n characters) contains no newline, because `.`
does not match a newline, and the closing literal starts at `n`. -/
def validCloseAt (t : List Char) (n : Nat) : Bool :=
  (t.take n).all (fun c => c != '\n') && leadsWith closeTitle (t.drop n)

/-- Last element of a list of candidate positions, with a default. -/
def lastD : List Nat → Option Nat → Option Nat
  | [], d => d
  | x :: xs, _ => lastD xs (some x)

/-- The stop position chosen by the greedy `(.*)</title>`: the largest
valid one. -/
def greedyClose (t : List Char) : Option Nat :=
  lastD ((List.range (t.length + 1)).filter (validCloseAt t)) none

/-- Parse `\d*\.\d*\]` (both digit runs greedy, which is forced since a
digit can continue neither at the dot nor at the bracket) from `t`,
returning group 1 (digits, dot, digits) and the remainder after `]`. -/
def parseDotGroups (t : List Char) : Option (List Char × List Char) :=
  match t.drop (countDigits t) with
  | '.' :: t3 =>
    match t3.drop (countDigits t3) with
    | ']' :: t5 => some (t.take (countDigits t) ++ '.' :: t3.take (countDigits t3), t5)
    | _ => none
  | _ => none

/-- Match FIND_TITLE_REGEX anchored at the head of `cs`, returning
(group 1, group 2) on success. -/
def matchTitleAt (cs : List Char) : Option (List Char × List Char) :=
  if leadsWith openMark cs then
    (parseDotGroups (cs.drop 8)).bind
      (fun p => (greedyClose p.2).map (fun n => (p.1, p.2.take n)))
  else none

/-- re.search for FIND_TITLE_REGEX: leftmost anchored match wins. -/
def searchTitle : List Char → Option (List Char × List Char)
  | [] => none
  | c :: cs =>
    match matchTitleAt (c :: cs) with
    | some g => some g
    | none => searchTitle cs

/-- Python str.strip(): remove leading and trailing whitespace. -/
def stripChars (cs : List Char) : List Char :=
  ((cs.dropWhile Char.isWhitespace).reverse.dropWhile Char.isWhitespace).reverse

/-- cut_tree.get_pdf_name: fetch the abstract page (the injected fetchAbs
covers session.get plus raise_for_status), then extract group 1 (the
embedded identifier) and group 2 stripped (the title).  When re.search
finds nothing, `match.group` raises on None; this failure is modelled as
UnparsableResponse. -/
def get_pdf_name (fetchAbs : String → Except Err String) (aid : String) :
    Except Err (String × String) :=
  match fetchAbs aid with
  | Except.error e => Except.error e
  | Except.ok xml =>
    match searchTitle xml.data with
    | some (g1, g2) => Except.ok (String.mk g1, String.mk (stripChars g2))
    | none => Except.error Err.UnparsableResponse

theorem leadsWith_iff (p s : List Char) : leadsWith p s = true ↔ ∃ r, s = p ++ r := by
  constructor
  · intro h
    have ht : s.take p.length = p := by
      simpa [leadsWith] using h
    refine ⟨s.drop p.length, ?_⟩
    conv_lhs => rw [← List.take_append_drop p.length s]
    rw [ht]
  · rintro ⟨r, rfl⟩
    simp [leadsWith, take_len_append]

theorem lastD_mem (l : List Nat) (d : Option Nat) (a : Nat) (h : lastD l d = some a) :
    a ∈ l ∨ d = some a := by
  induction l generalizing d with
  | nil => right; simpa [lastD] using h
  | cons x xs ih =>
    simp only [lastD] at h
    rcases ih (some x) h with hm | hd
    · left; exact List.mem_cons_of_mem x hm
    · left
      have : x = a := by simpa using hd
      simp [this]

theorem lastD_some (l : List Nat) (x : Nat) : ∃ a, lastD l (some x) = some a := by
  induction l generalizing x with
  | nil => exact ⟨x, rfl⟩
  | cons y ys ih => exact ih y

theorem lastD_of_mem (l : List Nat) (d : Option Nat) (n : Nat) (h : n ∈ l) :
    ∃ a, lastD l d = some a := by
  cases l with
  | nil => simp at h
  | cons x xs => exact lastD_some xs x

theorem greedyClose_sound (t : List Char) (n : Nat) (h : greedyClose t = some n) :
    validCloseAt t n = true := by
  rcases lastD_mem _ none n h with hm | hd
  · exact (List.mem_filter.mp hm).2
  · exact absurd hd (by simp)

theorem greedyClose_of_valid (t : List Char) (n : Nat) (h : validCloseAt t n = true) :
    ∃ n', greedyClose t = some n' := by
  have hlead : leadsWith closeTitle (t.drop n) = true := by
    simp only [validCloseAt, Bool.and_eq_true] at h
    exact h.2
  obtain ⟨r, hr⟩ := (leadsWith_iff _ _).mp hlead
  have hlen : n ≤ t.length := by
    have hdl : (t.drop n).length = closeTitle.length + r.length := by
      rw [hr, List.length_append]
    rw [List.length_drop] at hdl
    have : 0 < closeTitle.length := by simp [closeTitle]
    omega
  have hmem : n ∈ (List.range (t.length + 1)).filter (validCloseAt t) :=
    List.mem_filter.mpr ⟨List.mem_range.mpr (by omega), h⟩
  exact lastD_of_mem _ none n hmem

theorem parseDotGroups_sound (t g1 t5 : List Char) (h : parseDotGroups t = some (g1, t5)) :
    ∃ ds1 ds2, g1 = ds1 ++ '.' :: ds2 ∧ ds1.all Char.isDigit = true ∧
      ds2.all Char.isDigit = true ∧ t = ds1 ++ '.' :: (ds2 ++ ']' :: t5) := by
  unfold parseDotGroups at h
  split at h
  next t3 heq =>
    split at h
    next t5' heq2 =>
      simp only [Option.some.injEq, Prod.mk.injEq] at h
      obtain ⟨hg, ht⟩ := h
      subst ht
      refine ⟨t.take (countDigits t), t3.take (countDigits t3), hg.symm,
        take_countDigits_all t _ le_rfl, take_countDigits_all t3 _ le_rfl, ?_⟩
      conv_lhs => rw [← List.take_append_drop (countDigits t) t]
      rw [heq]
      congr 1
      simp only [List.cons.injEq, true_and]
      conv_lhs => rw [← List.take_append_drop (countDigits t3) t3]
      rw [heq2]
    next => exact absurd h (by simp)
  next => exact absurd h (by simp)

theorem parseDotGroups_complete (ds1 ds2 t5 : List Char)
    (h1 : ds1.all Char.isDigit = true) (h2 : ds2.all Char.isDigit = true) :
    parseDotGroups (ds1 ++ '.' :: (ds2 ++ ']' :: t5)) = some (ds1 ++ '.' :: ds2, t5) := by
  have hk1 : countDigits (ds1 ++ '.' :: (ds2 ++ ']' :: t5)) = ds1.length :=
    countDigits_append_nondigit ds1 '.' _ h1 (by decide)
  have hk2 : countDigits (ds2 ++ ']' :: t5) = ds2.length :=
    countDigits_append_nondigit ds2 ']' t5 h2 (by decide)
  unfold parseDotGroups
  rw [hk1, drop_len_append]
  split
  next t3 heq =>
    obtain rfl : ds2 ++ ']' :: t5 = t3 := by
      injection heq
    rw [hk2, drop_len_append]
    split
    next t5' heq2 =>
      obtain rfl : t5 = t5' := by
        injection heq2
      rw [take_len_append, take_len_append]
    next hne => exact (hne t5 rfl).elim
  next hne => exact (hne (ds2 ++ ']' :: t5) rfl).elim

/-- Soundness of the anchored title match: the groups come from an actual
decomposition of the input in the shape of FIND_TITLE_REGEX. -/
theorem matchTitleAt_sound (cs g1 g2 : List Char) (h : matchTitleAt cs = some (g1, g2)) :
    ∃ ds1 ds2 r, g1 = ds1 ++ '.' :: ds2 ∧ ds1.all Char.isDigit = true ∧
      ds2.all Char.isDigit = true ∧ g2.all (fun c => c != '\n') = true ∧
      cs = openMark ++ (ds1 ++ '.' :: (ds2 ++ ']' :: (g2 ++ (closeTitle ++ r)))) := by
  unfold matchTitleAt at h
  by_cases hl : leadsWith openMark cs = true
  · rw [if_pos hl] at h
    simp only [Option.bind_eq_some, Option.map_eq_some'] at h
    obtain ⟨⟨g1', t5⟩, hp, n, hg, hfn⟩ := h
    simp only [Prod.mk.injEq] at hfn
    obtain ⟨hg1, hg2⟩ := hfn
    obtain ⟨x, hx⟩ := (leadsWith_iff _ _).mp hl
    have hx8 : cs.drop 8 = x := by
      rw [hx]
      have h8 : openMark.length = 8 := rfl
      rw [← h8, drop_len_append]
    rw [hx8] at hp
    obtain ⟨ds1, ds2, hshape, hd1, hd2, hxeq⟩ := parseDotGroups_sound x g1' t5 hp
    have hv := greedyClose_sound t5 n hg
    simp only [validCloseAt, Bool.and_eq_true] at hv
    obtain ⟨hnl, hcl⟩ := hv
    obtain ⟨r0, hr0⟩ := (leadsWith_iff _ _).mp hcl
    have ht5 : t5 = g2 ++ (closeTitle ++ r0) := by
      conv_lhs => rw [← List.take_append_drop n t5]
      rw [hr0, hg2]
    refine ⟨ds1, ds2, r0, hg1.symm.trans hshape, hd1, hd2, ?_, ?_⟩
    · rw [← hg2]
      exact hnl
    · rw [hx, hxeq, ht5]
  · rw [if_neg hl] at h
    exact absurd h (by simp)

/-- Completeness of the anchored title match: a failure means no
decomposition of the input has the shape of FIND_TITLE_REGEX. -/
theorem matchTitleAt_none (cs : List Char) (h : matchTitleAt cs = none) :
    ∀ ds1 ds2 g2 r, ds1.all Char.isDigit = true → ds2.all Char.isDigit = true →
      g2.all (fun c => c != '\n') = true →
      cs ≠ openMark ++ (ds1 ++ '.' :: (ds2 ++ ']' :: (g2 ++ (closeTitle ++ r)))) := by
  intro ds1 ds2 g2 r hd1 hd2 hnl hcs
  have hl : leadsWith openMark cs = true := (leadsWith_iff _ _).mpr ⟨_, hcs⟩
  unfold matchTitleAt at h
  rw [if_pos hl] at h
  have hx8 : cs.drop 8 = ds1 ++ '.' :: (ds2 ++ ']' :: (g2 ++ (closeTitle ++ r))) := by
    rw [hcs]
    have h8 : openMark.length = 8 := rfl
    rw [← h8, drop_len_append]
  rw [hx8, parseDotGroups_complete ds1 ds2 _ hd1 hd2] at h
  have hvalid : validCloseAt (g2 ++ (closeTitle ++ r)) g2.length = true := by
    simp only [validCloseAt, Bool.and_eq_true]
    constructor
    · rw [take_len_append]
      exact hnl
    · rw [drop_len_append]
      exact (leadsWith_iff _ _).mpr ⟨r, rfl⟩
  obtain ⟨n', hn'⟩ := greedyClose_of_valid _ _ hvalid
  simp only [Option.some_bind, hn', Option.map_some'] at h
  exact absurd h (by simp)

/-- searchTitle finds the leftmost anchored match. -/
theorem searchTitle_some (s : List Char) (g : List Char × List Char)
    (h : searchTitle s = some g) :
    ∃ i, matchTitleAt (s.drop i) = some g ∧ ∀ j, j < i → matchTitleAt (s.drop j) = none := by
  induction s with
  | nil => simp [searchTitle] at h
  | cons c cs ih =>
    simp only [searchTitle] at h
    cases hm : matchTitleAt (c :: cs) with
    | some g' =>
      rw [hm] at h
      refine ⟨0, ?_, ?_⟩
      · simpa [hm] using h
      · intro j hj
        omega
    | none =>
      rw [hm] at h
      obtain ⟨i, hi, hlt⟩ := ih h
      refine ⟨i + 1, by simpa using hi, ?_⟩
      intro j hj
      cases j with
      | zero => simpa using hm
      | succ j => simpa using hlt j (by omega)

/-- When searchTitle fails there is no anchored match at any position. -/
theorem searchTitle_none (s : List Char) (h : searchTitle s = none) :
    ∀ i, matchTitleAt (s.drop i) = none := by
  induction s with
  | nil =>
    intro i
    simp [matchTitleAt, leadsWith, openMark]
  | cons c cs ih =>
    simp only [searchTitle] at h
    cases hm : matchTitleAt (c :: cs) with
    | some g => rw [hm] at h; exact absurd h (by simp)
    | none =>
      rw [hm] at h
      intro i
      cases i with
      | zero => simpa using hm
      | succ i => simpa using ih h i

/-- A decomposition of the body `s` at position `i` in the shape of
FIND_TITLE_REGEX: the literal "<title>[", a digits-dot-digits group, "]",
a newline-free title text group, and the literal "</title>". -/
def titleDecompAt (s : List Char) (i : Nat) (ds1 ds2 g2 : List Char) : Prop :=
  ds1.all Char.isDigit = true ∧ ds2.all Char.isDigit = true ∧
  g2.all (fun c => c != '\n') = true ∧
  ∃ r, s.drop i = openMark ++ (ds1 ++ '.' :: (ds2 ++ ']' :: (g2 ++ (closeTitle ++ r))))

/-- C6: for every metadata response body fetched with success status,
get_pdf_name extracts the first (leftmost) title element of the form
[<id>]<title text>, returning the embedded identifier (digits, dot,
digits — group 1 of FIND_TITLE_REGEX) and the whitespace-trimmed title
text separately; when the body contains no such match it fails with the
UnparsableResponse error. -/
theorem get_pdf_name_correct (fetchAbs : String → Except Err String) (aid xml : String)
    (hf : fetchAbs aid = Except.ok xml) :
    (∃ i ds1 ds2 g2, titleDecompAt xml.data i ds1 ds2 g2 ∧
        (∀ j ds1' ds2' g2', titleDecompAt xml.data j ds1' ds2' g2' → i ≤ j) ∧
        get_pdf_name fetchAbs aid =
          Except.ok (String.mk (ds1 ++ '.' :: ds2), String.mk (stripChars g2)))
    ∨ ((∀ i ds1 ds2 g2, ¬ titleDecompAt xml.data i ds1 ds2 g2) ∧
        get_pdf_name fetchAbs aid = Except.error Err.UnparsableResponse) := by
  cases hs : searchTitle xml.data with
  | some g =>
    left
    obtain ⟨g1, g2⟩ := g
    obtain ⟨i, hi, hlt⟩ := searchTitle_some xml.data (g1, g2) hs
    obtain ⟨ds1, ds2, r, hshape, hd1, hd2, hnl, hdec⟩ := matchTitleAt_sound _ g1 g2 hi
    refine ⟨i, ds1, ds2, g2, ⟨hd1, hd2, hnl, r, hdec⟩, ?_, ?_⟩
    · intro j ds1' ds2' g2' hdj
      by_contra hji
      push_neg at hji
      obtain ⟨hd1', hd2', hnl', r', hdec'⟩ := hdj
      exact matchTitleAt_none _ (hlt j hji) ds1' ds2' g2' r' hd1' hd2' hnl' hdec'
    · rw [← hshape]
      simp [get_pdf_name, hf, hs]
  | none =>
    right
    refine ⟨?_, by simp [get_pdf_name, hf, hs]⟩
    intro i ds1 ds2 g2 hdj
    obtain ⟨hd1, hd2, hnl, r, hdec⟩ := hdj
    exact matchTitleAt_none _ (searchTitle_none xml.data hs i) ds1 ds2 g2 r hd1 hd2 hnl hdec

/-- The network environment injected into the pipeline: fetching the
abstract page body (get_pdf_name's GET plus raise_for_status) and fetching
the PDF bytes (get_pdf_file's GET plus raise_for_status). -/
structure FetchEnv where
  fetchAbs : String → Except Err String
  fetchPdf : String → Except Err String

/-- cut_tree.get_pdf_file: fetch the binary document for an identifier
(the body is modelled as a string of bytes). -/
def get_pdf_file (env : FetchEnv) (aid : String) : Except Err String :=
  env.fetchPdf aid

/-- A network call issued by the pipeline, recorded for the
invocation-order claims: a GET of the abstract page or of the PDF. -/
inductive Call where
  | abs (aid : String)
  | pdf (aid : String)
  deriving Repr, DecidableEq

/-- Whether a recorded call is a PDF (content) fetch. -/
def isPdfCall : Call → Bool
  | Call.pdf _ => true
  | Call.abs _ => false

/-- Number of content fetches in a trace. -/
def pdfCallCount (t : List Call) : Nat := (t.filter isPdfCall).length

/-- cut_tree.process_one_article: extract the identifier, fetch and parse
the abstract page, assert that the parsed identifier equals the extracted
one (AssertionError modelled as IdentityMismatch), then fetch the PDF and
return the pair (pdf_file, text_title) — content first, title second,
exactly as the source's `return pdf_file, text_title`.  The second
component of the result is the trace of network calls issued, in order. -/
def process_one_article (env : FetchEnv) (article_uri : String) :
    Except Err (String × String) × List Call :=
  match get_article_id article_uri with
  | Except.error e => (Except.error e, [])
  | Except.ok aid =>
    match get_pdf_name env.fetchAbs aid with
    | Except.error e => (Except.error e, [Call.abs aid])
    | Except.ok (parsed_aid, text_title) =>
      if aid = parsed_aid then
        match get_pdf_file env aid with
        | Except.error e => (Except.error e, [Call.abs aid, Call.pdf aid])
        | Except.ok pdf_file =>
          (Except.ok (pdf_file, text_title), [Call.abs aid, Call.pdf aid])
      else (Except.error (Err.IdentityMismatch aid parsed_aid), [Call.abs aid])

deriving instance DecidableEq for Except

/-- Mock environment of the spec's concrete test vector: the summary body
for 1706.03762 and content bytes "%PDF-FAKE". -/
def mockEnv : FetchEnv where
  fetchAbs := fun aid =>
    if aid = "1706.03762" then
      Except.ok "<title>[1706.03762] Attention Is All You Need</title>"
    else Except.error Err.UpstreamUnavailable
  fetchPdf := fun aid =>
    if aid = "1706.03762" then Except.ok "%PDF-FAKE"
    else Except.error Err.UpstreamUnavailable

/-- C1 counterexample: at the spec's concrete instance (input 1706.03762,
summary body with that title, content %PDF-FAKE) the pipeline run
succeeds, but the returned pair is (content, title) — the source returns
`pdf_file, text_title` — so the comparison with the claimed
(title, content) pair evaluates to false. -/
theorem pipeline_pair_not_title_content :
    (process_one_article mockEnv "1706.03762").fst =
      Except.ok ("%PDF-FAKE", "Attention Is All You Need") ∧
    decide ((process_one_article mockEnv "1706.03762").fst =
      Except.ok ("Attention Is All You Need", "%PDF-FAKE")) = false := by
  constructor
  · decide
  · decide

/-- C1 (amended): every successful pipeline run returns the pair in the
order (content, title): the first component is the body fetched by
get_pdf_file and the second the title parsed by get_pdf_name (whose
embedded identifier equals the extracted one). -/
theorem pipeline_returns_content_then_title (env : FetchEnv) (uri : String)
    (p : String × String) (h : (process_one_article env uri).fst = Except.ok p) :
    ∃ aid, get_article_id uri = Except.ok aid ∧
      env.fetchPdf aid = Except.ok p.1 ∧
      get_pdf_name env.fetchAbs aid = Except.ok (aid, p.2) := by
  unfold process_one_article at h
  split at h
  next e hga => simp at h
  next aid hga =>
    split at h
    next e hgn => simp at h
    next parsed title hgn =>
      split at h
      next heq =>
        split at h
        next e hpdf => simp at h
        next pdf hpdf =>
          simp only [Except.ok.injEq] at h
          subst heq
          refine ⟨aid, hga, ?_, ?_⟩
          · rw [← h]
            simpa [get_pdf_file] using hpdf
          · rw [← h]
            simpa using hgn
      next heq => simp at h

/-- Witness for C1's amended theorem at the spec's concrete instance. -/
theorem pipeline_returns_content_then_title_witness :
    ∃ aid, get_article_id "1706.03762" = Except.ok aid ∧
      mockEnv.fetchPdf aid = Except.ok ("%PDF-FAKE", "Attention Is All You Need").1 ∧
      get_pdf_name mockEnv.fetchAbs aid =
        Except.ok (aid, ("%PDF-FAKE", "Attention Is All You Need").2) :=
  pipeline_returns_content_then_title mockEnv "1706.03762"
    ("%PDF-FAKE", "Attention Is All You Need") (by decide)

/-- Mock environment whose summary body embeds a different identifier
(1706.99999) than any requested one. -/
def mismatchEnv : FetchEnv where
  fetchAbs := fun _ =>
    Except.ok "<title>[1706.99999] Attention Is All You Need</title>"
  fetchPdf := fun _ => Except.ok "%PDF-FAKE"

/-- C5: when the identifier embedded in the metadata response differs from
the extracted one, the pipeline fails with IdentityMismatch and issues no
content fetch at all; and conversely any content fetch in the trace was
issued only after the cross-check succeeded (the parsed identifier equals
the extracted one). -/
theorem identity_mismatch_blocks_content_fetch (env : FetchEnv) (uri : String) :
    (∀ aid parsed title,
        get_article_id uri = Except.ok aid →
        get_pdf_name env.fetchAbs aid = Except.ok (parsed, title) →
        aid ≠ parsed →
        (process_one_article env uri).fst =
          Except.error (Err.IdentityMismatch aid parsed) ∧
        pdfCallCount (process_one_article env uri).snd = 0) ∧
    (∀ a, Call.pdf a ∈ (process_one_article env uri).snd →
        get_article_id uri = Except.ok a ∧
        ∃ title, get_pdf_name env.fetchAbs a = Except.ok (a, title)) := by
  constructor
  · intro aid parsed title hga hgn hne
    unfold process_one_article
    simp only [hga, hgn]
    rw [if_neg hne]
    exact ⟨rfl, rfl⟩
  · intro a hmem
    unfold process_one_article at hmem
    split at hmem
    next e hga => simp at hmem
    next aid hga =>
      split at hmem
      next e hgn => simp at hmem
      next parsed title hgn =>
        split at hmem
        next heq =>
          split at hmem
          next e hpdf =>
            simp only [List.mem_cons, List.not_mem_nil, or_false] at hmem
            rcases hmem with hmem | hmem
            · simp at hmem
            · obtain rfl : a = aid := by
                injection hmem
              rw [← heq] at hgn
              exact ⟨hga, title, hgn⟩
          next pdf hpdf =>
            simp only [List.mem_cons, List.not_mem_nil, or_false] at hmem
            rcases hmem with hmem | hmem
            · simp at hmem
            · obtain rfl : a = aid := by
                injection hmem
              rw [← heq] at hgn
              exact ⟨hga, title, hgn⟩
        next heq =>
          simp only [List.mem_cons, List.not_mem_nil, or_false] at hmem
          simp at hmem

/-- Witness for C5 at the mismatch environment: requested 1706.03762,
embedded 1706.99999. -/
theorem identity_mismatch_blocks_content_fetch_witness :
    (process_one_article mismatchEnv "1706.03762").fst =
      Except.error (Err.IdentityMismatch "1706.03762" "1706.99999") ∧
    pdfCallCount (process_one_article mismatchEnv "1706.03762").snd = 0 :=
  (identity_mismatch_blocks_content_fetch mismatchEnv "1706.03762").1
    "1706.03762" "1706.99999" "Attention Is All You Need"
    (by decide) (by decide) (by decide)

/-- The loop body of cut_tree.main, iterating over
enumerate(asyncio.as_completed(tasks)).  `order` is the completion order:
its k-th element is the index (into `articles`) of the task that finishes
k-th; `k` is the enumerate counter `aidx`.  Each step awaits the result
(a failure propagates and aborts the batch, as an uncaught exception
does), logs the pair (article_list[aidx], title) — exactly the source's
log line — and invokes the callback with (title, pdf_file).  The result
collects the log pairs and the callback invocations in order.  This
Except-valued form reports only the error when some run fails;
`runMainTrace` below is the same loop keeping the log entries and
callback invocations that happened before the failure, and the two are
proved to agree (runMainTrace_matches_aux). -/
def runMainAux (env : FetchEnv) (articles : List String) :
    List Nat → Nat → Except Err (List (String × String) × List (String × String))
  | [], _ => Except.ok ([], [])
  | i :: rest, k =>
    match (process_one_article env (articles.getD i "")).fst with
    | Except.error e => Except.error e
    | Except.ok (pdf_file, title) =>
      match runMainAux env articles rest (k + 1) with
      | Except.error e => Except.error e
      | Except.ok (logs, calls) =>
        Except.ok ((articles.getD k "", title) :: logs, (title, pdf_file) :: calls)

/-- cut_tree.main with the completion order made explicit; aidx starts
at 0. -/
def runMain (env : FetchEnv) (articles : List String) (order : List Nat) :
    Except Err (List (String × String) × List (String × String)) :=
  runMainAux env articles order 0

theorem getD_mem_of_lt (l : List String) (i : Nat) (h : i < l.length) :
    l.getD i "" ∈ l := by
  induction l generalizing i with
  | nil => simp at h
  | cons a l ih =>
    cases i with
    | zero => simp [List.getD]
    | succ i =>
      simp only [List.getD_cons_succ]
      exact List.mem_cons_of_mem a (ih i (by simpa using h))

/-- On an all-success batch the loop completes with one log entry and one
callback invocation per completed task. -/
theorem runMainAux_ok (env : FetchEnv) (articles : List String) (order : List Nat)
    (k : Nat) (hb : ∀ i ∈ order, i < articles.length)
    (hok : ∀ a ∈ articles, ∃ p, (process_one_article env a).fst = Except.ok p) :
    ∃ logs calls, runMainAux env articles order k = Except.ok (logs, calls) ∧
      logs.length = order.length ∧ calls.length = order.length := by
  induction order generalizing k with
  | nil => exact ⟨[], [], rfl, rfl, rfl⟩
  | cons i rest ih =>
    have hi : i < articles.length := hb i (List.mem_cons_self i rest)
    obtain ⟨p, hp⟩ := hok (articles.getD i "") (getD_mem_of_lt articles i hi)
    obtain ⟨pdf_file, title⟩ := p
    obtain ⟨logs, calls, hrun, hl, hc⟩ :=
      ih (k + 1) (fun j hj => hb j (List.mem_cons_of_mem i hj))
    refine ⟨(articles.getD k "", title) :: logs, (title, pdf_file) :: calls, ?_, ?_, ?_⟩
    · simp only [runMainAux, hp, hrun]
    · simpa using hl
    · simpa using hc

/-- What one coordinator run leaves behind: the log pairs written and the
callback invocations awaited, in order, and — when some pipeline run
failed — the error of the first failing completion, which aborts the
loop.  Entries produced before that failure are retained, because main
has already logged them and already awaited postproc_fn for them when
the later `await task_result` raises. -/
structure BatchTrace where
  logs : List (String × String)
  calls : List (String × String)
  err : Option Err
  deriving Repr, DecidableEq

/-- The loop body of cut_tree.main again (same iteration, same indexing
as runMainAux), but keeping the trace across a failure: the first failing
completion stops the loop and is recorded in `err`, while the log entries
and callback invocations of the runs completed before it remain. -/
def runMainTraceAux (env : FetchEnv) (articles : List String) :
    List Nat → Nat → BatchTrace
  | [], _ => ⟨[], [], none⟩
  | i :: rest, k =>
    match (process_one_article env (articles.getD i "")).fst with
    | Except.error e => ⟨[], [], some e⟩
    | Except.ok (pdf_file, title) =>
      let t := runMainTraceAux env articles rest (k + 1)
      ⟨(articles.getD k "", title) :: t.logs, (title, pdf_file) :: t.calls, t.err⟩

/-- cut_tree.main with the completion order explicit, trace-preserving
form; aidx starts at 0. -/
def runMainTrace (env : FetchEnv) (articles : List String) (order : List Nat) :
    BatchTrace :=
  runMainTraceAux env articles order 0

/-- The trace-preserving loop and the Except-valued loop describe the
same run: on an all-success batch they produce the same logs and calls
(and no error), and on a failing batch the trace records exactly the
error runMainAux reports — the error of the first failing completion. -/
theorem runMainTrace_matches_aux (env : FetchEnv) (articles : List String) :
    ∀ (order : List Nat) (k : Nat),
    (∀ logs calls, runMainAux env articles order k = Except.ok (logs, calls) →
      runMainTraceAux env articles order k = ⟨logs, calls, none⟩) ∧
    (∀ e, runMainAux env articles order k = Except.error e →
      (runMainTraceAux env articles order k).err = some e) := by
  intro order
  induction order with
  | nil =>
    intro k
    constructor
    · intro logs calls h
      simp only [runMainAux, Except.ok.injEq, Prod.mk.injEq] at h
      simp [runMainTraceAux, ← h.1, ← h.2]
    · intro e h
      simp [runMainAux] at h
  | cons i rest ih =>
    intro k
    constructor
    · intro logs calls h
      unfold runMainAux at h
      split at h
      next e hp => simp at h
      next pdf_file title hp =>
        split at h
        next e hrest => simp at h
        next logs' calls' hrest =>
          simp only [Except.ok.injEq, Prod.mk.injEq] at h
          have hrec := (ih (k + 1)).1 logs' calls' hrest
          rw [← h.1, ← h.2]
          simp only [runMainTraceAux]
          rw [hp]
          simp [hrec]
    · intro e h
      unfold runMainAux at h
      split at h
      next e' hp =>
        simp only [Except.error.injEq] at h
        simp only [runMainTraceAux]
        rw [hp]
        simp [h]
      next pdf_file title hp =>
        split at h
        next e' hrest =>
          simp only [Except.error.injEq] at h
          have hrec := (ih (k + 1)).2 e' hrest
          simp only [runMainTraceAux]
          rw [hp]
          simp [hrec, h]
        next logs' calls' hrest => simp at h

/-- Every callback invocation in a trace — also one made before a later
run's failure — carries the pair returned by a single
process_one_article run on one of the articles. -/
theorem runMainTraceAux_calls (env : FetchEnv) (articles : List String) :
    ∀ (order : List Nat) (k : Nat), (∀ i ∈ order, i < articles.length) →
    ∀ tc ∈ (runMainTraceAux env articles order k).calls, ∃ a, a ∈ articles ∧
      (process_one_article env a).fst = Except.ok (tc.2, tc.1) := by
  intro order
  induction order with
  | nil =>
    intro k hb tc htc
    simp [runMainTraceAux] at htc
  | cons i rest ih =>
    intro k hb tc htc
    unfold runMainTraceAux at htc
    split at htc
    next e hp => simp at htc
    next pdf_file title hp =>
      simp only [List.mem_cons] at htc
      rcases htc with rfl | htc
      · exact ⟨articles.getD i "",
          getD_mem_of_lt articles i (hb i (List.mem_cons_self i rest)), hp⟩
      · exact ih (k + 1) (fun j hj => hb j (List.mem_cons_of_mem i hj)) tc htc

/-- Environment with two distinct articles and distinct titles, used for
the batch-coordinator claims. -/
def envTwo : FetchEnv where
  fetchAbs := fun aid =>
    if aid = "1706.03762" then Except.ok "<title>[1706.03762] Title A</title>"
    else if aid = "1706.11111" then Except.ok "<title>[1706.11111] Title B</title>"
    else Except.error Err.UpstreamUnavailable
  fetchPdf := fun aid => Except.ok (String.append "PDF-" aid)

/-- C2: the log line pairs article_list[aidx] — aidx being the completion
rank, not the index the task was launched with — with the completed
title.  With two articles and reversed completion order the first log
entry associates line 1706.03762 with Title B, although that line's own
pipeline run produces Title A: the coordinator mis-associates lines and
titles under reordering. -/
theorem log_association_uses_completion_rank :
    runMain envTwo ["1706.03762", "1706.11111"] [1, 0] =
      Except.ok ([("1706.03762", "Title B"), ("1706.11111", "Title A")],
        [("Title B", "PDF-1706.11111"), ("Title A", "PDF-1706.03762")]) ∧
    (process_one_article envTwo "1706.03762").fst =
      Except.ok ("PDF-1706.03762", "Title A") := by
  constructor
  · decide
  · decide

/-- C7: over N input lines whose pipeline runs all succeed, the
coordinator completes and invokes the post-processing callback exactly N
times (the loop awaits each invocation before the next completion is
processed, the model being sequential per completed task). -/
theorem runBatch_callback_count (env : FetchEnv) (articles : List String)
    (order : List Nat) (hperm : order.Perm (List.range articles.length))
    (hok : ∀ a ∈ articles, ∃ p, (process_one_article env a).fst = Except.ok p) :
    ∃ logs calls, runMain env articles order = Except.ok (logs, calls) ∧
      calls.length = articles.length ∧ logs.length = articles.length := by
  have hb : ∀ i ∈ order, i < articles.length := by
    intro i hi
    have := hperm.mem_iff.mp hi
    simpa using this
  obtain ⟨logs, calls, hrun, hl, hc⟩ := runMainAux_ok env articles order 0 hb hok
  have hlen : order.length = articles.length := by
    simpa using hperm.length_eq
  exact ⟨logs, calls, hrun, by omega, by omega⟩

/-- Witness for C7: both articles succeed and the callback runs twice. -/
theorem runBatch_callback_count_witness :
    ∃ logs calls, runMain envTwo ["1706.03762", "1706.11111"] [1, 0] =
      Except.ok (logs, calls) ∧ calls.length = 2 ∧ logs.length = 2 :=
  runBatch_callback_count envTwo ["1706.03762", "1706.11111"] [1, 0]
    (by decide)
    (by
      intro a ha
      simp only [List.mem_cons, List.not_mem_nil, or_false] at ha
      rcases ha with rfl | rfl
      · exact ⟨("PDF-1706.03762", "Title A"), by decide⟩
      · exact ⟨("PDF-1706.11111", "Title B"), by decide⟩)

/-- C9: every (title, content) pair handed to the post-processing
callback — in any batch outcome, including pairs forwarded to the
callback before a later run's failure aborts the batch — is the pair
returned by a single process_one_article run of one of the batch's
articles; title and content are never recombined across concurrently
completing articles. -/
theorem callback_pair_from_single_run (env : FetchEnv) (articles : List String)
    (order : List Nat) (hperm : order.Perm (List.range articles.length)) :
    ∀ tc ∈ (runMainTrace env articles order).calls, ∃ a, a ∈ articles ∧
      (process_one_article env a).fst = Except.ok (tc.2, tc.1) := by
  have hb : ∀ i ∈ order, i < articles.length := by
    intro i hi
    have := hperm.mem_iff.mp hi
    simpa using this
  exact runMainTraceAux_calls env articles order 0 hb

/-- Witness for C9 at a partially failing batch: the first article
succeeds and its callback runs, then the second article's fetch fails
and aborts the batch; the pre-failure invocation still carries the pair
of the first article's own run. -/
theorem callback_pair_from_single_run_witness :
    ∃ a, a ∈ ["1706.03762", "9999.99999"] ∧
      (process_one_article envTwo a).fst =
        Except.ok (("Title A", "PDF-1706.03762").2, ("Title A", "PDF-1706.03762").1) :=
  callback_pair_from_single_run envTwo ["1706.03762", "9999.99999"] [0, 1]
    (by decide) ("Title A", "PDF-1706.03762") (by decide)

/-- Python exceptions raised by the __main__ helpers. -/
inductive PyErr where
  | valueErrorNoInput
  | valueErrorBadList
  | typeErrorOpenList
  | fileNotFoundError
  deriving Repr, DecidableEq

/-- Python str.split(','): split on every comma; the result always has at
least one (possibly empty) token. -/
def splitComma : List Char → List (List Char)
  | [] => [[]]
  | c :: cs =>
    if c = ',' then [] :: splitComma cs
    else
      match splitComma cs with
      | t :: ts => (c :: t) :: ts
      | [] => [[c]]

/-- Python file iteration: the lines of the content, each keeping its
trailing newline (the final line may lack one); an empty file yields no
lines. -/
def splitLinesKeep : List Char → List (List Char)
  | [] => []
  | c :: cs =>
    match splitLinesKeep cs with
    | [] => [[c]]
    | l :: ls => if c = '\n' then ['\n'] :: l :: ls else (c :: l) :: ls

/-- Python str.rstrip of a newline: remove every trailing newline. -/
def rstripNL (l : List Char) : List Char :=
  (l.reverse.dropWhile (fun c => c == '\n')).reverse

/-- A Python value handed to open(): the source hands it the list `ret`
where a path string was intended. -/
inductive PyVal where
  | str (s : String)
  | list (xs : List String)

/-- Python open(...) followed by line iteration over the modelled
filesystem: open requires a str path and raises TypeError on a list —
which is what the source's open(ret) hits — and raises if the path does
not exist; otherwise it yields the file's lines with their trailing
newlines. -/
def pyOpenLines (fs : String → Option String) (v : PyVal) :
    Except PyErr (List String) :=
  match v with
  | PyVal.str p =>
    match fs p with
    | some content => Except.ok ((splitLinesKeep content.data).map String.mk)
    | none => Except.error PyErr.fileNotFoundError
  | PyVal.list _ => Except.error PyErr.typeErrorOpenList

/-- os.path.isfile over the modelled filesystem. -/
def os_path_isfile (fs : String → Option String) (p : String) : Bool := (fs p).isSome

/-- cut_tree's generate_article_list: reject missing/empty input, split on
commas and strip each token, raise ValueError if the token list is empty,
and when the single token names an existing file, read it — except the
source opens `ret` (the list) instead of `ret[0]`, so that branch hands
open() a list. -/
def generate_article_list (fs : String → Option String) (input_str : Option String) :
    Except PyErr (List String) :=
  match input_str with
  | none => Except.error PyErr.valueErrorNoInput
  | some s =>
    if s = "" then Except.error PyErr.valueErrorNoInput
    else
      let ret := (splitComma s.data).map (fun t => String.mk (stripChars t))
      if ret.length = 0 then Except.error PyErr.valueErrorBadList
      else if ret.length = 1 ∧ os_path_isfile fs (ret.headD "") = true then
        match pyOpenLines fs (PyVal.list ret) with
        | Except.error e => Except.error e
        | Except.ok lines => Except.ok (lines.map (fun l => String.mk (rstripNL l.data)))
      else Except.ok ret

/-- Example filesystem: ids.txt exists and holds two identifier lines. -/
def fsEx : String → Option String :=
  fun p => if p = "ids.txt" then some "1706.03762\n1811.00001\n" else none

/-- C3 (code bug): for an --input naming an existing file, the source
calls open(ret) on the list ret rather than on the path ret[0], so every
existing-file input raises TypeError instead of returning the file's
lines; evaluated here at a two-line file. -/
theorem generate_article_list_file_input_crashes :
    generate_article_list fsEx (some "ids.txt") =
      Except.error PyErr.typeErrorOpenList := by decide

/-- Whether a result is the ValueError of the len(ret) == 0 branch. -/
def isBadListErr : Except PyErr (List String) → Bool
  | Except.error PyErr.valueErrorBadList => true
  | _ => false

theorem splitComma_ne_nil (cs : List Char) : 1 ≤ (splitComma cs).length := by
  induction cs with
  | nil => simp [splitComma]
  | cons c cs ih =>
    simp only [splitComma]
    split
    · simp
    · split
      next heq => simp
      next heq => simp

/-- C10: the error branch guarded by len(ret) == 0 is unreachable —
splitting any string on commas yields at least one token, so
generate_article_list never raises that ValueError, whatever the input
and the filesystem. -/
theorem badlist_branch_unreachable (fs : String → Option String) (s : Option String) :
    isBadListErr (generate_article_list fs s) = false ∧
    ∀ t : String, 1 ≤ (splitComma t.data).length := by
  constructor
  · cases s with
    | none => rfl
    | some s =>
      simp only [generate_article_list]
      by_cases hs : s = ""
      · rw [if_pos hs]
        rfl
      · rw [if_neg hs]
        have hlen : 1 ≤ ((splitComma s.data).map (fun t => String.mk (stripChars t))).length := by
          rw [List.length_map]
          exact splitComma_ne_nil s.data
        rw [if_neg (by omega)]
        split
        · rfl
        · rfl
  · intro t
    exact splitComma_ne_nil t.data

/-- Witness for C10 at a concrete comma-separated input. -/
theorem badlist_branch_unreachable_witness :
    isBadListErr (generate_article_list fsEx (some "1706.03762,1706.11111")) = false ∧
    ∀ t : String, 1 ≤ (splitComma t.data).length :=
  badlist_branch_unreachable fsEx (some "1706.03762,1706.11111")

/-- Whether setup_printing yields a usable print function: printing must
be requested and the CUPS stack must work (import succeeds, a printer is
configured); every failure path is caught and returns None. -/
def setup_printing (should_print cupsOk : Bool) : Bool := should_print && cupsOk

/-- Whether setup_saving sets the temp_dir global by creating a temporary
directory: only in print-only mode — no save directory yet a print
function present. -/
def setup_saving_temp (saveDir : Option String) (printOn : Bool) : Bool :=
  match saveDir with
  | some _ => false
  | none => printOn

/-- The finally block of __main__: shutil.rmtree the temporary directory
whenever the temp_dir global was set. -/
def finallyCleanup (tempVar tempExists : Bool) : Bool :=
  if tempVar then false else tempExists

/-- Report of one whole-process run. -/
structure RunReport where
  tempCreated : Bool
  tempAtExit : Bool
  batchRaised : Bool
  deriving Repr, DecidableEq

/-- The __main__ try/finally: set up printing, set up saving (possibly
creating the temporary directory), run the batch (batchOk = false models
an uncaught exception anywhere in the try block after setup), then run
the finally block.  tempAtExit is whether the temporary directory still
exists when the process terminates. -/
def mainEntry (printRequested cupsOk : Bool) (saveDir : Option String)
    (batchOk : Bool) : RunReport :=
  let printOn := setup_printing printRequested cupsOk
  let tempVar := setup_saving_temp saveDir printOn
  { tempCreated := tempVar
    tempAtExit := finallyCleanup tempVar tempVar
    batchRaised := !batchOk }

/-- C8 counterexample: printing is requested (--print) with no save
directory, but the print service is unavailable, so setup_printing
returns None and setup_saving creates no temporary directory — the
claim's "a temporary directory is created" fails. -/
theorem print_requested_no_cups_no_tempdir :
    (mainEntry true false none true).tempCreated = false := by decide

/-- C8 (amended): whenever printing is requested, printing setup succeeds
(the print service is available) and no save directory is given, a
temporary directory is created; and in every outcome — batch success or
failure — no temporary directory remains when the process terminates. -/
theorem temp_dir_lifecycle (printRequested cupsOk : Bool) (saveDir : Option String)
    (batchOk : Bool) :
    ((printRequested = true ∧ cupsOk = true ∧ saveDir = none) →
      (mainEntry printRequested cupsOk saveDir batchOk).tempCreated = true) ∧
    (mainEntry printRequested cupsOk saveDir batchOk).tempAtExit = false := by
  constructor
  · rintro ⟨rfl, rfl, rfl⟩
    rfl
  · unfold mainEntry finallyCleanup setup_saving_temp setup_printing
    cases saveDir <;> cases printRequested <;> cases cupsOk <;> rfl

/-- Witness for C8's amended theorem: print-only mode with a working
print service and a failing batch still creates and removes the
temporary directory. -/
theorem temp_dir_lifecycle_witness :
    (mainEntry true true none false).tempCreated = true ∧
    (mainEntry true true none false).tempAtExit = false :=
  ⟨(temp_dir_lifecycle true true none false).1 ⟨rfl, rfl, rfl⟩,
   (temp_dir_lifecycle true true none false).2⟩

/-- Witness for C4 at a line with surrounding text around the
identifier. -/
theorem get_article_id_correct_witness :
    (∃ m i, idPattern m = true ∧
        (∃ r, ("x 1706.03762 y" : String).data.drop i = m ++ r) ∧
        (∀ j m', idPattern m' = true →
          (∃ r', ("x 1706.03762 y" : String).data.drop j = m' ++ r') → i ≤ j) ∧
        (∀ m', idPattern m' = true →
          (∃ r', ("x 1706.03762 y" : String).data.drop i = m' ++ r') →
          m'.length ≤ m.length) ∧
        get_article_id "x 1706.03762 y" = Except.ok (String.mk m))
    ∨ ((∀ i m' r, ("x 1706.03762 y" : String).data.drop i = m' ++ r →
          idPattern m' = false) ∧
        get_article_id "x 1706.03762 y" =
          Except.error (Err.MalformedInput "x 1706.03762 y")) :=
  get_article_id_correct "x 1706.03762 y"

/-- Witness for C6 at the spec's concrete summary body. -/
theorem get_pdf_name_correct_witness :
    (∃ i ds1 ds2 g2,
        titleDecompAt
          ("<title>[1706.03762] Attention Is All You Need</title>" : String).data
          i ds1 ds2 g2 ∧
        (∀ j ds1' ds2' g2',
          titleDecompAt
            ("<title>[1706.03762] Attention Is All You Need</title>" : String).data
            j ds1' ds2' g2' → i ≤ j) ∧
        get_pdf_name mockEnv.fetchAbs "1706.03762" =
          Except.ok (String.mk (ds1 ++ '.' :: ds2), String.mk (stripChars g2)))
    ∨ ((∀ i ds1 ds2 g2,
          ¬ titleDecompAt
            ("<title>[1706.03762] Attention Is All You Need</title>" : String).data
            i ds1 ds2 g2) ∧
        get_pdf_name mockEnv.fetchAbs "1706.03762" =
          Except.error Err.UnparsableResponse) :=
  get_pdf_name_correct mockEnv.fetchAbs "1706.03762"
    "<title>[1706.03762] Attention Is All You Need</title>" (by decide)
